import Mathlib

/-!
# wlr-gamma-daemon: a shallow embedding of `src/main.cpp` and `src/ipc.cpp`

Conventions of the embedding.

* `double` values are exact rationals (`ℚ`).  The C library function `pow` is not
  part of the repository; every definition that calls it takes it as the
  parameter `pow`, and theorems about `gamma = 1` assume `pow x 1 = x`.
* Pointers and protocol handles are natural numbers, `0` being `nullptr`.
* `uint32_t` arithmetic is taken modulo `2 ^ 32`, the conversion of a `double`
  to `uint16_t` truncates toward zero and keeps the low 16 bits.
* A `DYN_ASSERT` / `PANIC` that fires ends the process: such functions return
  `Option`, and `none` is the abort.
* Calls into the operating system and the compositor are recorded, in order,
  in the `log` of the `World`.
-/

namespace GammaDaemon

/-! ## Color -/

/-- The struct `Color` (main.cpp:11-23); the defaults are those of the source. -/
structure Color where
  red : ℚ := 1
  green : ℚ := 1
  blue : ℚ := 1
  gamma : ℚ := 1

/-- The member `Color::operator==` (main.cpp:17-22): exact field-wise comparison. -/
def Color.eq (c o : Color) : Bool :=
  c.red == o.red && c.green == o.green && c.blue == o.blue && c.gamma == o.gamma

/-! ## Machine arithmetic -/

/-- The constant `UINT16_MAX`. -/
def UINT16_MAX : ℚ := 65535

/-- Reduction of a natural number to `uint32_t`. -/
def u32 (n : Nat) : Nat := n % 2 ^ 32

/-- Truncation toward zero, the rounding of a floating to integer conversion. -/
def trunc (x : ℚ) : Int := if 0 ≤ x then ⌊x⌋ else ⌈x⌉

/-- Conversion of a `double` to `uint16_t`: truncate toward zero, keep the low
16 bits (out of range the conversion is undefined in C++; the wrap-around is
what the usual compilers emit). -/
def toU16 (x : ℚ) : Nat := (trunc x % 65536).toNat

/-- Conversion of a `double` (or `long`) to `int`: truncate, wrap to 32 bits,
two's complement. -/
def wrapInt32 (z : Int) : Int := (z + 2 ^ 31) % 2 ^ 32 - 2 ^ 31

/-! ## Gamma Curve Engine -/

/-- The local `e` of `fill_gamma_table` (main.cpp:51): `1. * i / (ramp_size - 1)`,
the subtraction being done in `uint32_t`. -/
def ramp_e (ramp_size i : Nat) : ℚ := 1 * (i : ℚ) / ((u32 (ramp_size + 2 ^ 32 - 1) : Nat) : ℚ)

/-- The value stored for one channel (main.cpp:53-55):
`UINT16_MAX * pow(e * value, 1.0 / gamma)` converted to `uint16_t`. -/
def sample (pow : ℚ → ℚ → ℚ) (e value gamma : ℚ) : Nat :=
  toU16 (UINT16_MAX * pow (e * value) (1 / gamma))

/-- One pass of the loop body of `fill_gamma_table` (main.cpp:51-55) at index `i`:
`r = table`, `g = r + ramp_size`, `b = g + ramp_size`. -/
def fill_step (pow : ℚ → ℚ → ℚ) (ramp_size : Nat) (color : Color)
    (table : List Nat) (i : Nat) : List Nat :=
  let e := ramp_e ramp_size i
  let t1 := table.set i (sample pow e color.red color.gamma)
  let t2 := t1.set (ramp_size + i) (sample pow e color.green color.gamma)
  t2.set (ramp_size + ramp_size + i) (sample pow e color.blue color.gamma)

/-- The static member `Output::fill_gamma_table` (main.cpp:46-57): the loop
`for(i = 0u; i < ramp_size; i += 1)` over the buffer `table`. -/
def fill_gamma_table (pow : ℚ → ℚ → ℚ) (table : List Nat) (ramp_size : Nat)
    (color : Color) : List Nat :=
  (List.range ramp_size).foldl (fill_step pow ramp_size color) table

/-- A stand-in for `pow` used to evaluate the definitions on concrete inputs:
exact on the integer exponents, the identity in the base elsewhere. -/
def powInt (x y : ℚ) : ℚ := if y.den = 1 then x ^ y.num else x

/-! ## The world outside the process -/

/-- What a path names: a regular file with its bytes, or a directory (which
`open` accepts read-only but `read` refuses). -/
inductive Node where
  | file (content : List Char)
  | dir
  deriving DecidableEq

/-- Calls into the operating system and the compositor, in program order. -/
inductive Effect where
  | memfd_create (size : Nat)
  | set_gamma (gamma_control : Nat) (table : List Nat)
  | munmap (size : Nat)
  | close_memfd
  | wl_output_release (data : Nat)
  | gamma_control_destroy (gamma_control : Nat)
  | close (fd : Int)
  | remove (path : String)
  | write_file (path : String) (text : List Char)
  | ipc_create (path : String) (fd : Int)
  | ipc_read (fd : Int)
  | bind (name : Nat) (interface : String) (handle : Nat)
  | get_gamma_control (manager : Nat) (output : Nat) (handle : Nat)
  | printf (text : String)
  | warn (text : String)
  | read_events
  | cancel_read
  deriving DecidableEq

/-- The state outside the process: the files of the working directory, whether
the kernel grants a shared-memory region of a given size in bytes
(`memfd_create`, `ftruncate` and `mmap` all succeeding), the value of `errno`,
the open watch descriptors, and the calls made so far. -/
structure World where
  fs : String → Option Node
  shm_ok : Nat → Bool
  errno : Int
  watches : List Int
  log : List Effect

/-- Append one call to the log. -/
def World.emit (w : World) (e : Effect) : World := { w with log := w.log ++ [e] }

/-- Error number of a path that names nothing. -/
def ENOENT : Int := 2

/-- Error number of an operation refused on a directory. -/
def EISDIR : Int := 21

/-- Error number of an out-of-range conversion. -/
def ERANGE : Int := 34

/-! ## Output and Context -/

/-- The struct `Output` (main.cpp:25-32).  `registry_name` and `gamma_size` have
no default member initializer in the source. -/
structure Output where
  data : Nat := 0
  gamma_control : Nat := 0
  registry_name : Nat
  gamma_size : Nat
  ipc_fd : Int := 0
  name : String := ""
  color : Color := {}

/-- The static member `Output::create_gamma_table` (main.cpp:34-44): `none` when
one of its three assertions fires, otherwise the zero-filled mapping of
`table_size` bytes seen as 16-bit samples. -/
def create_gamma_table (w : World) (table_size : Nat) : Option (World × List Nat) :=
  if w.shm_ok table_size then
    some (w.emit (.memfd_create table_size), List.replicate (table_size / 2) 0)
  else none

/-- The member `Output::set_gamma_table` (main.cpp:59-70). -/
def set_gamma_table (pow : ℚ → ℚ → ℚ) (w : World) (o : Output) (new_color : Color) :
    Option (World × Output) :=
  if o.color.eq new_color then some (w, o)
  else
    match create_gamma_table w (u32 (o.gamma_size * 3 * 2)) with
    | none => none
    | some (w1, mem) =>
      let mem1 := fill_gamma_table pow mem o.gamma_size new_color
      let w2 := w1.emit (.set_gamma o.gamma_control mem1)
      let w3 := w2.emit (.munmap (u32 (o.gamma_size * 3 * 2)))
      let w4 := w3.emit .close_memfd
      some (w4, { o with color := new_color })

/-- The library call `remove(path)`: the entry disappears; on a path that names
nothing the call fails and only sets `errno`. -/
def remove_path (w : World) (path : String) : World :=
  let w1 := w.emit (.remove path)
  if path = "" then { w1 with errno := ENOENT }
  else
    match w1.fs path with
    | none => { w1 with errno := ENOENT }
    | some _ => { w1 with fs := fun p => if p = path then none else w1.fs p }

/-- The system call `close(fd)`: a watch descriptor stops being one. -/
def close_fd (w : World) (fd : Int) : World :=
  { w.emit (.close fd) with watches := w.watches.filter (fun d => d != fd) }

/-- The member `Output::finish` (main.cpp:72-86). -/
def Output.finish (w : World) (o : Output) : World × Output :=
  let s1 : World × Output :=
    if o.data ≠ 0 then (w.emit (.wl_output_release o.data), { o with data := 0 }) else (w, o)
  let s2 : World × Output :=
    if s1.2.gamma_control ≠ 0 then
      (s1.1.emit (.gamma_control_destroy s1.2.gamma_control), { s1.2 with gamma_control := 0 })
    else s1
  let s3 : World × Output :=
    if s2.2.ipc_fd ≠ 0 then (close_fd s2.1 s2.2.ipc_fd, { s2.2 with ipc_fd := 0 }) else s2
  (remove_path s3.1 s3.2.name, s3.2)

/-- The struct `Context` (main.cpp:89-91). -/
structure Context where
  outputs : List Output := []
  gamma_control_manager : Nat := 0

/-- The linear scan shared by the two `find_output` overloads: position and
value of the first Output satisfying `p`; `none` is the `PANIC()` after the loop. -/
def find_first (p : Output → Bool) : List Output → Option (Nat × Output)
  | [] => none
  | o :: os => if p o then some (0, o) else (find_first p os).map (fun r => (r.1 + 1, r.2))

/-- The overload `Context::find_output(wl_output*)` (main.cpp:93-100). -/
def Context.find_output (ctx : Context) (output : Nat) : Option (Nat × Output) :=
  find_first (fun o => o.data == output) ctx.outputs

/-- The overload `Context::find_output(zwlr_gamma_control_v1*)` (main.cpp:102-109). -/
def Context.find_output_gamma_control (ctx : Context) (gamma_control : Nat) :
    Option (Nat × Output) :=
  find_first (fun o => o.gamma_control == gamma_control) ctx.outputs

/-! ## Brightness Control Channel -/

/-- The predicate `isspace` of the C locale. -/
def isspace (c : Char) : Bool :=
  c == ' ' || c == '\t' || c == '\n' || c == '\x0b' || c == '\x0c' || c == '\r'

/-- The value of a character read as a digit, letters counting from ten. -/
def digitVal (c : Char) : Option Nat :=
  if '0' ≤ c ∧ c ≤ '9' then some (c.toNat - '0'.toNat)
  else if 'a' ≤ c ∧ c ≤ 'z' then some (c.toNat - 'a'.toNat + 10)
  else if 'A' ≤ c ∧ c ≤ 'Z' then some (c.toNat - 'A'.toNat + 10)
  else none

/-- The longest run of digits valid in `base` at the head of the text,
accumulated from `acc`. -/
def digits (base : Nat) : List Char → Nat → Nat
  | [], acc => acc
  | c :: cs, acc =>
    match digitVal c with
    | some d => if d < base then digits base cs (acc * base + d) else acc
    | none => acc

/-- The constant `LONG_MAX` of a 64-bit `long`. -/
def LONG_MAX : Int := 2 ^ 63 - 1

/-- The constant `LONG_MIN` of a 64-bit `long`. -/
def LONG_MIN : Int := -(2 ^ 63)

/-- The library call `strtol(str, NULL, 0)`: leading white space, an optional
sign, base 16 after `0x`, base 8 after `0`, base 10 otherwise; no digit at all
gives 0.  The second component tells whether the value was out of range (the
call then sets `errno` to `ERANGE` and saturates).  The binary prefix of C23 is
left out. -/
def strtol (str : List Char) : Int × Bool :=
  let s1 := str.dropWhile isspace
  let signed : Bool × List Char :=
    match s1 with
    | '-' :: r => (true, r)
    | '+' :: r => (false, r)
    | r => (false, r)
  let based : Nat × List Char :=
    match signed.2 with
    | '0' :: x :: h :: r =>
      if (x == 'x' || x == 'X') && (digitVal h).any (fun d => decide (d < 16)) then (16, h :: r)
      else (8, signed.2)
    | '0' :: r => (8, '0' :: r)
    | r => (10, r)
  let magnitude : Int := (digits based.1 based.2 0 : Nat)
  let v : Int := if signed.1 then -magnitude else magnitude
  if v > LONG_MAX then (LONG_MAX, true)
  else if v < LONG_MIN then (LONG_MIN, true)
  else (v, false)

/-- The function `write_int_to_file` (main.cpp:119-125).  The file is opened
with `O_WRONLY | O_CREAT` and nothing else: an existing file keeps its bytes,
and the text of `value` overwrites them from offset 0.  `none` is a failed
assertion (the path cannot be opened for writing); an opened file takes the
whole text in one `write`. -/
def write_int_to_file (w : World) (path : String) (value : Int) : Option World :=
  let opened : Option (List Char) :=
    if path = "" then none
    else
      match w.fs path with
      | none => some []
      | some (.file content) => some content
      | some .dir => none
  match opened with
  | none => none
  | some old =>
    let str := (toString value).data
    some { w with
      fs := fun p => if p = path then some (.file (str ++ old.drop str.length)) else w.fs p
      log := w.log ++ [.write_file path str] }

/-- The function `read_int_from_file` (main.cpp:127-150).  The buffer is 64 zero
bytes, `read` fills at most 64 of them, `strtol` stops at the first zero byte
(with 64 bytes and none of them zero the source reads past the buffer; the
model stops there).  The test of `errno` comes after the assignment to `r`, and
both of its branches leave `r` as assigned. -/
def read_int_from_file (w : World) (path : String) : Int × World :=
  let r0 : Int := -1
  match (if path = "" then none else w.fs path) with
  | none => (r0, { w with errno := ENOENT })
  | some .dir => (r0, { w with errno := EISDIR })
  | some (.file content) =>
    let buf := (content.take 64).takeWhile (fun c => c != '\x00')
    let parsed := strtol buf
    let w1 : World := if parsed.2 then { w with errno := ERANGE } else w
    let r1 : Int := wrapInt32 parsed.1
    if w1.errno ≠ 0 then (r1, w1) else (r1, w1)

/-- The function `ipc::create` (ipc.cpp:11-16); `inotify_fd` is what
`inotify_init` returned, a negative value when it failed. -/
def ipc_create (w : World) (name : String) (inotify_fd : Int) : Int × World :=
  (inotify_fd,
    { w.emit (.ipc_create name inotify_fd) with
      watches := if 0 ≤ inotify_fd then inotify_fd :: w.watches else w.watches })

/-- The function `ipc::read` (ipc.cpp:18-31): an open watch is drained, record by
record, until `read` reports `EAGAIN`; on any other descriptor `read` fails
otherwise and the assertion fires (`none`). -/
def ipc_read (w : World) (fd : Int) : Option World :=
  if fd ∈ w.watches then some (w.emit (.ipc_read fd)) else none

/-! ## Registry and protocol callbacks -/

/-- Modelled from the spec: the string `wl_output_interface.name`, declared in
the Wayland client headers which are not part of the sources; the per-output
display object of the registry protocol. -/
def wl_output_interface_name : String := "wl_output"

/-- Modelled from the spec: the string
`zwlr_gamma_control_manager_v1_interface.name`, declared in the generated
protocol header `wlr-gamma-control-unstable-v1.h` which is not part of the
sources; the gamma-control manager factory. -/
def zwlr_gamma_control_manager_v1_interface_name : String := "zwlr_gamma_control_manager_v1"

/-- The callback `zwlr_gamma_control_v1_gamma_size` (main.cpp:158-168);
`inotify_fd` is the descriptor the kernel hands to `ipc::create`. -/
def zwlr_gamma_control_v1_gamma_size (w : World) (ctx : Context) (gamma_control : Nat)
    (size : Nat) (inotify_fd : Int) : Option (World × Context) :=
  match ctx.find_output_gamma_control gamma_control with
  | none => none
  | some (i, o) =>
    let o1 : Output := { o with gamma_size := size }
    match write_int_to_file w o1.name (wrapInt32 (trunc (o1.color.red * 100))) with
    | none => none
    | some w1 =>
      let created := ipc_create w1 o1.name inotify_fd
      some (created.2, { ctx with outputs := ctx.outputs.set i { o1 with ipc_fd := created.1 } })

/-- The callback `zwlr_gamma_control_v1_failed` (main.cpp:170-172). -/
def zwlr_gamma_control_v1_failed (w : World) : World := w.emit (.warn "control failed\n")

/-- The callback `output_name` (main.cpp:180-189); `gamma_control` is the handle
`zwlr_gamma_control_manager_v1_get_gamma_control` returned.  The request is
marshalled on the manager, so a null manager ends the process. -/
def output_name (w : World) (ctx : Context) (output : Nat) (name : String)
    (gamma_control : Nat) : Option (World × Context) :=
  let w1 := w.emit (.printf name)
  match ctx.find_output output with
  | none => none
  | some (i, o) =>
    let o1 : Output := { o with name := name }
    if ctx.gamma_control_manager = 0 then none
    else
      let w2 := w1.emit (.get_gamma_control ctx.gamma_control_manager output gamma_control)
      some (w2,
        { ctx with outputs := ctx.outputs.set i { o1 with gamma_control := gamma_control } })

/-- The callback `registry_global` (main.cpp:201-211); `bound` is the handle
`wl_registry_bind` returned.  The members the initializer list leaves out take
their default, and `gamma_size`, which has none, is zero. -/
def registry_global (w : World) (ctx : Context) (name : Nat) (interface : String)
    (bound : Nat) : World × Context :=
  if interface = wl_output_interface_name then
    (w.emit (.bind name interface bound),
      { ctx with outputs := ctx.outputs ++ [{ data := bound, registry_name := name, gamma_size := 0 }] })
  else if interface = zwlr_gamma_control_manager_v1_interface_name then
    (w.emit (.bind name interface bound), { ctx with gamma_control_manager := bound })
  else (w, ctx)

/-- The loop of `registry_global_remove` (main.cpp:215-221) from the iterator
position on: the first Output with the registry name is finished and erased. -/
def remove_first (name : Nat) : List Output → World → World × List Output
  | [], w => (w, [])
  | o :: os, w =>
    if o.registry_name = name then ((o.finish w).1, os)
    else ((remove_first name os w).1, o :: (remove_first name os w).2)

/-- The callback `registry_global_remove` (main.cpp:213-222). -/
def registry_global_remove (w : World) (ctx : Context) (name : Nat) : World × Context :=
  ((remove_first name ctx.outputs w).1, { ctx with outputs := (remove_first name ctx.outputs w).2 })

/-- A protocol event with what the client library returns while it is handled. -/
inductive Event where
  | global (name : Nat) (interface : String) (bound : Nat)
  | global_remove (name : Nat)
  | name (output : Nat) (name : String) (gamma_control : Nat)
  | gamma_size (gamma_control : Nat) (size : Nat) (inotify_fd : Int)
  | failed (gamma_control : Nat)

/-- Dispatch of one event to its listener (main.cpp:174-177, 191-198, 224-227). -/
def step (w : World) (ctx : Context) : Event → Option (World × Context)
  | .global name interface bound => some (registry_global w ctx name interface bound)
  | .global_remove name => some (registry_global_remove w ctx name)
  | .name output name gamma_control => output_name w ctx output name gamma_control
  | .gamma_size gamma_control size inotify_fd =>
    zwlr_gamma_control_v1_gamma_size w ctx gamma_control size inotify_fd
  | .failed _ => some (zwlr_gamma_control_v1_failed w, ctx)

/-- Dispatch of a queue of events, in order (`wl_display_dispatch_pending`). -/
def dispatch : List Event → World → Context → Option (World × Context)
  | [], w, ctx => some (w, ctx)
  | e :: es, w, ctx =>
    match step w ctx e with
    | none => none
    | some s => dispatch es s.1 s.2

/-- An event the compositor can deliver: handles are those the client library
created (non-null), and an output name is not the empty string. -/
def Event.wf : Event → Prop
  | .global _ _ _ => True
  | .global_remove _ => True
  | .name _ text handle => text ≠ "" ∧ handle ≠ 0
  | .gamma_size handle _ _ => handle ≠ 0
  | .failed handle => handle ≠ 0

/-! ## Event loop -/

/-- The loop that fills `pollfds` after the display descriptor (main.cpp:250-255). -/
def push_channels : List Output → List Int → List Int
  | [], pollfds => pollfds
  | o :: os, pollfds =>
    if o.ipc_fd = 0 then push_channels os pollfds
    else push_channels os (pollfds ++ [o.ipc_fd])

/-- The readiness set (main.cpp:248-255). -/
def build_pollfds (display_fd : Int) (outputs : List Output) : List Int :=
  push_channels outputs [display_fd]

/-- The Output the channel handling binds to position `i` of the readiness set:
the expression `context.outputs[i - 1]` (main.cpp:268); `none` is an index past
the end of the vector. -/
def handled_output (ctx : Context) (i : Nat) : Option Output := ctx.outputs[i - 1]?

/-- The loop `for(i = 1; i < pollfds.size(); i += 1)` (main.cpp:264-277) from
position `i` on; `polled` holds the remaining entries with their `POLLIN` bit. -/
def channel_loop (pow : ℚ → ℚ → ℚ) :
    Nat → List (Int × Bool) → World → Context → Option (World × Context)
  | _, [], w, ctx => some (w, ctx)
  | i, (fd, ready) :: rest, w, ctx =>
    if ready then
      match ipc_read w fd with
      | none => none
      | some w1 =>
        match handled_output ctx i with
        | none => none
        | some output =>
          let r := read_int_from_file w1 output.name
          let brightness := r.1
          if brightness = -1 then
            channel_loop pow (i + 1) rest (r.2.emit (.warn output.name)) ctx
          else
            let c : ℚ := brightness / 100
            match set_gamma_table pow r.2 output
              { red := c, green := c, blue := c, gamma := 1 } with
            | none => none
            | some (w3, output1) =>
              channel_loop pow (i + 1) rest w3
                { ctx with outputs := ctx.outputs.set (i - 1) output1 }
    else channel_loop pow (i + 1) rest w ctx

/-- One turn of the loop of `main` from the construction of `pollfds` on
(main.cpp:248-277).  `revents` is what `poll` reports per position and `events`
what the display connection then delivers. -/
def iteration (pow : ℚ → ℚ → ℚ) (display_fd : Int) (revents : List Bool)
    (events : List Event) (w : World) (ctx : Context) : Option (World × Context) :=
  let pollfds := build_pollfds display_fd ctx.outputs
  let dispatched : Option (World × Context) :=
    if revents.headD false then dispatch events (w.emit .read_events) ctx
    else some (w.emit .cancel_read, ctx)
  match dispatched with
  | none => none
  | some s => channel_loop pow 1 (pollfds.tail.zip revents.tail) s.1 s.2

/-! ## Concrete inputs -/

/-- The Color `{0.5, 0.5, 0.5, 1.0}`. -/
def color_half : Color := { red := 1 / 2, green := 1 / 2, blue := 1 / 2, gamma := 1 }

/-- A Color with full channels. -/
def color_full : Color := { red := 1, green := 1, blue := 1, gamma := 1 }

/-- A world with no file, unlimited shared memory and an empty log. -/
def world0 : World :=
  { fs := fun _ => none, shm_ok := fun _ => true, errno := 0, watches := [], log := [] }

/-- A world with one regular file `path` holding `text`. -/
def world_file (path : String) (text : String) : World :=
  { fs := fun p => if p = path then some (.file text.data) else none
    shm_ok := fun _ => true, errno := 0, watches := [], log := [] }

/-- The world of the channel handling examples: the file `DP-1` holds `75`, the
watch descriptors 5 and 6 are open. -/
def world_75 : World := { world_file "DP-1" "75" with watches := [5, 6] }

/-- An Output in state `Controlled` whose compositor announced a ramp size of 1. -/
def output_size_one : Output :=
  { data := 11, gamma_control := 21, registry_name := 2, gamma_size := 1, ipc_fd := 5,
    name := "DP-1" }

/-- The same world with a stale non-zero `errno`. -/
def world_file_errno (path : String) (text : String) : World :=
  { world_file path text with errno := ENOENT }

/-- A world in which `path` names a directory. -/
def world_dir (path : String) : World :=
  { fs := fun p => if p = path then some .dir else none
    shm_ok := fun _ => true, errno := 0, watches := [], log := [] }

/-- Two outputs are announced, then the gamma-control manager; the second output
gets its name and its ramp size, the first is still waiting for its name. -/
def example_events : List Event :=
  [.global 1 "wl_output" 10, .global 2 "wl_output" 11,
    .global 3 "zwlr_gamma_control_manager_v1" 30, .name 11 "DP-1" 21, .gamma_size 21 256 5]

/-- The first output of `example_events`: state `Announced`, no channel. -/
def output_announced : Output := { data := 10, registry_name := 1, gamma_size := 0 }

/-- The second output of `example_events`: state `Controlled`, channel descriptor 5. -/
def output_controlled : Output :=
  { data := 11, gamma_control := 21, registry_name := 2, gamma_size := 256, ipc_fd := 5,
    name := "DP-1" }

/-- A third output in state `Controlled`, channel descriptor 6. -/
def output_controlled_hdmi : Output :=
  { data := 12, gamma_control := 22, registry_name := 4, gamma_size := 256, ipc_fd := 6,
    name := "HDMI-A-1" }

/-- The Context `example_events` leads to. -/
def example_ctx : Context :=
  { outputs := [output_announced, output_controlled], gamma_control_manager := 30 }

/-- A Context whose only output has a channel. -/
def aligned_ctx : Context := { outputs := [output_controlled], gamma_control_manager := 30 }

/-- A Context with two outputs, both with a channel. -/
def two_channels_ctx : Context :=
  { outputs := [output_controlled, output_controlled_hdmi], gamma_control_manager := 30 }

/-- The Color the loop builds from a brightness of 75. -/
def color_75 : Color := { red := 3 / 4, green := 3 / 4, blue := 3 / 4, gamma := 1 }

/-- The releases the data model asks of a removal, in the words of the spec:
the display handle and the gamma-control handle when there is one, the channel
descriptor when it is open, and the removal of the backing file. -/
def finish_calls (o : Output) : List Effect :=
  (if o.data ≠ 0 then [.wl_output_release o.data] else []) ++
  (if o.gamma_control ≠ 0 then [.gamma_control_destroy o.gamma_control] else []) ++
  (if o.ipc_fd ≠ 0 then [.close o.ipc_fd] else []) ++ [.remove o.name]

/-- An output is announced, the manager too, and the output gets its name. -/
def named_events : List Event :=
  [.global 1 "wl_output" 10, .global 3 "zwlr_gamma_control_manager_v1" 30,
    .name 10 "DP-1" 20]

/-- The Output `named_events` leads to: state `Named`. -/
def output_named : Output :=
  { data := 10, gamma_control := 20, registry_name := 1, gamma_size := 0, name := "DP-1" }

/-- What holds of every Output of a reachable Context: the name is set exactly when
the gamma-control handle is, and a channel is open only then. -/
def Output.consistent (o : Output) : Prop :=
  (o.name ≠ "" ↔ o.gamma_control ≠ 0) ∧ (o.ipc_fd ≠ 0 → o.name ≠ "" ∧ o.gamma_control ≠ 0)

/-! ## Arithmetic of the samples -/

theorem fill_fold (pow : ℚ → ℚ → ℚ) (N : Nat) (c : Color) (table : List Nat)
    (hlen : table.length = 3 * N) (k : Nat) (hk : k ≤ N) :
    ((List.range k).foldl (fill_step pow N c) table).length = 3 * N ∧
    ∀ i, i < k →
      ((List.range k).foldl (fill_step pow N c) table)[i]? =
          some (sample pow (ramp_e N i) c.red c.gamma) ∧
      ((List.range k).foldl (fill_step pow N c) table)[N + i]? =
          some (sample pow (ramp_e N i) c.green c.gamma) ∧
      ((List.range k).foldl (fill_step pow N c) table)[N + N + i]? =
          some (sample pow (ramp_e N i) c.blue c.gamma) := by
  induction k with
  | zero => simp [hlen]
  | succ k ih =>
    obtain ⟨hl, hi⟩ := ih (by omega)
    rw [List.range_succ, List.foldl_append]
    simp only [List.foldl_cons, List.foldl_nil]
    generalize (List.range k).foldl (fill_step pow N c) table = t at hl hi
    refine ⟨by simp [fill_step, hl], ?_⟩
    intro i hik
    by_cases hik2 : i = k
    · subst hik2
      have hN : N ≠ 0 := by omega
      have h1 : i < 3 * N := by omega
      have h2 : N + i < 3 * N := by omega
      have h3 : N + N + i < 3 * N := by omega
      simp [fill_step, List.getElem?_set, hl, hN, h1, h2, h3]
    · have hlt : i < k := by omega
      obtain ⟨h1, h2, h3⟩ := hi i hlt
      simp only [fill_step, List.getElem?_set, List.length_set, hl]
      refine ⟨?_, ?_, ?_⟩
      · rw [if_neg (by omega), if_neg (by omega), if_neg (by omega)]; exact h1
      · rw [if_neg (by omega), if_neg (by omega), if_neg (by omega)]; exact h2
      · rw [if_neg (by omega), if_neg (by omega), if_neg (by omega)]; exact h3

theorem fill_gamma_table_length (pow : ℚ → ℚ → ℚ) (N : Nat) (c : Color) (table : List Nat)
    (hlen : table.length = 3 * N) : (fill_gamma_table pow table N c).length = 3 * N :=
  (fill_fold pow N c table hlen N le_rfl).1

theorem Color.eq_iff (a b : Color) : a.eq b = true ↔ a = b := by
  cases a; cases b
  simp [Color.eq, and_assoc]

theorem set_gamma_table_same (pow : ℚ → ℚ → ℚ) (w : World) (o : Output) (c : Color)
    (h : o.color.eq c = true) : set_gamma_table pow w o c = some (w, o) := by
  simp [set_gamma_table, h]

theorem set_gamma_table_changed (pow : ℚ → ℚ → ℚ) (w : World) (o : Output) (c : Color)
    (hne : o.color.eq c = false) (hshm : w.shm_ok (u32 (o.gamma_size * 3 * 2)) = true) :
    set_gamma_table pow w o c =
      some ({ w with log := w.log ++ [.memfd_create (u32 (o.gamma_size * 3 * 2)),
                .set_gamma o.gamma_control
                  (fill_gamma_table pow (List.replicate (u32 (o.gamma_size * 3 * 2) / 2) 0)
                    o.gamma_size c),
                .munmap (u32 (o.gamma_size * 3 * 2)), .close_memfd] },
            { o with color := c }) := by
  simp [set_gamma_table, hne, create_gamma_table, hshm, World.emit]

/-! ## C9: a ramp size of 1 -/

/-- C9 (as amended): neither `fill_gamma_table` nor `set_gamma_table` checks the
ramp size.  With `ramp_size = 1` the loop body runs once, at index 0, and the
buffer keeps its length; on an Output whose `gamma_size` is 1 and whose cached
color differs from the target, `set_gamma_table` does not abort when the 6-byte
region is granted: it creates the region, sends a table of 3 samples with
`set_gamma` and caches the color. -/
theorem ramp_size_one_not_rejected (pow : ℚ → ℚ → ℚ) (c : Color) (table : List Nat)
    (w : World) (o : Output) (hsize : o.gamma_size = 1) (hne : o.color.eq c = false)
    (hshm : w.shm_ok 6 = true) :
    fill_gamma_table pow table 1 c = fill_step pow 1 c table 0 ∧
    (fill_gamma_table pow table 1 c).length = table.length ∧
    ∃ mem, mem.length = 3 ∧
      set_gamma_table pow w o c =
        some ({ w with log := w.log ++ [.memfd_create 6, .set_gamma o.gamma_control mem,
                  .munmap 6, .close_memfd] },
              { o with color := c }) := by
  refine ⟨rfl, by simp [fill_gamma_table, fill_step, List.range_succ], ?_⟩
  have hs : u32 (o.gamma_size * 3 * 2) = 6 := by rw [hsize]; rfl
  refine ⟨fill_gamma_table pow (List.replicate (6 / 2) 0) o.gamma_size c, ?_, ?_⟩
  · rw [hsize]
    exact fill_gamma_table_length pow 1 c _ (by simp)
  · have h := set_gamma_table_changed pow w o c hne (by rw [hs]; exact hshm)
    rw [hs] at h
    exact h

/-- C9, on a concrete input: an Output with `gamma_size = 1` and the default color,
asked for `Color{0.5, 0.5, 0.5, 1.0}`. -/
theorem ramp_size_one_not_rejected_witness :
    (fill_gamma_table powInt [0, 0, 0] 1 color_half).length = 3 ∧
    ∃ mem, mem.length = 3 ∧
      set_gamma_table powInt world0 output_size_one color_half =
        some ({ world0 with log := world0.log ++ [.memfd_create 6,
                  .set_gamma output_size_one.gamma_control mem, .munmap 6, .close_memfd] },
              { output_size_one with color := color_half }) :=
  ⟨(ramp_size_one_not_rejected powInt color_half [0, 0, 0] world0 output_size_one rfl
      (by norm_num [Color.eq, output_size_one, color_half]) rfl).2.1,
    (ramp_size_one_not_rejected powInt color_half [0, 0, 0] world0 output_size_one rfl
      (by norm_num [Color.eq, output_size_one, color_half]) rfl).2.2⟩

/-- C9 as stated fails: on an Output whose `gamma_size` is 1, `set_gamma_table` with
a color different from the cached one returns normally, having issued one
`set_gamma` request with a table of 3 samples. -/
theorem ramp_size_one_counterexample :
    ∃ w1 o1 mem, set_gamma_table powInt world0 output_size_one color_half = some (w1, o1) ∧
      w1.log = [.memfd_create 6, .set_gamma 21 mem, .munmap 6, .close_memfd] ∧
      mem.length = 3 ∧ o1.color = color_half := by
  have h := set_gamma_table_changed powInt world0 output_size_one color_half
    (by norm_num [Color.eq, output_size_one, color_half]) rfl
  exact ⟨_, _, _, h, rfl, fill_gamma_table_length powInt 1 color_half _ (by decide), rfl⟩

/-! ## C2: idempotence of `set_gamma_table` -/

/-- C3 fails on the code: the file holds `100`, 5 is written, the file then holds
`500` (the text `5` over the first byte, the old tail kept) and the read gives
500; the file holds `1000`, 100 is written (what the `gamma_size` callback writes
for the default color), the file still holds `1000` and the read gives 1000. -/
theorem write_read_stale_digits :
    (write_int_to_file (world_file "DP-1" "100") "DP-1" 5).map
      (fun w => (w.fs "DP-1", (read_int_from_file w "DP-1").1)) =
        some (some (.file ['5', '0', '0']), 500) ∧
    (write_int_to_file (world_file "DP-1" "1000") "DP-1" 100).map
      (fun w => (w.fs "DP-1", (read_int_from_file w "DP-1").1)) =
        some (some (.file ['1', '0', '0', '0']), 1000) := by
  decide

/-- Written to a path that names nothing yet, every value from 0 to 100 is read back. -/
theorem write_read_fresh (V : Nat) (hV : V ≤ 100) :
    (write_int_to_file world0 "DP-1" V).map (fun w => (read_int_from_file w "DP-1").1) =
      some (V : Int) := by
  interval_cases V <;> decide

/-- C4 fails on the code: a file whose content is `abc`, and an empty file, are
read as 0, whatever `errno` holds; only a path that cannot be opened or cannot be
read gives -1. -/
theorem read_non_numeric_is_zero :
    (read_int_from_file (world_file "DP-1" "abc") "DP-1").1 = 0 ∧
    (read_int_from_file (world_file "DP-1" "") "DP-1").1 = 0 ∧
    (read_int_from_file (world_file_errno "DP-1" "abc") "DP-1").1 = 0 ∧
    (read_int_from_file (world_file_errno "DP-1" "75") "DP-1").1 = 75 ∧
    (read_int_from_file world0 "DP-1").1 = -1 ∧
    (read_int_from_file (world_dir "DP-1") "DP-1").1 = -1 := by
  decide

/-- A path that cannot be opened gives -1. -/
theorem read_int_from_file_absent (w : World) (path : String) (h : w.fs path = none) :
    (read_int_from_file w path).1 = -1 := by
  unfold read_int_from_file
  split_ifs <;> simp [h]

/-- A descriptor that cannot be read gives -1. -/
theorem read_int_from_file_unreadable (w : World) (path : String) (hp : path ≠ "")
    (h : w.fs path = some .dir) : (read_int_from_file w path).1 = -1 := by
  simp [read_int_from_file, hp, h]

/-! ## C5, C10: the channel handling of the event loop -/

theorem push_channels_eq (outputs : List Output) (pollfds : List Int) :
    push_channels outputs pollfds =
      pollfds ++ (outputs.filter (fun o => decide (o.ipc_fd ≠ 0))).map (fun o => o.ipc_fd) := by
  induction outputs generalizing pollfds with
  | nil => simp [push_channels]
  | cons o os ih =>
    by_cases h : o.ipc_fd = 0
    · simp [push_channels, h, ih]
    · simp [push_channels, h, ih]

/-- The readiness set is the display descriptor followed by the channel
descriptors of the Outputs that have one, in collection order. -/
theorem build_pollfds_eq (display_fd : Int) (outputs : List Output) :
    build_pollfds display_fd outputs =
      display_fd ::
        (outputs.filter (fun o => decide (o.ipc_fd ≠ 0))).map (fun o => o.ipc_fd) := by
  simp [build_pollfds, push_channels_eq]

/-- The Context of the failing inputs is the one `example_events` leads to from the
empty Context. -/
theorem example_ctx_reachable :
    ∃ w, dispatch example_events world0 {} = some (w, example_ctx) :=
  ⟨_, rfl⟩

/-- C10 fails on the code.  With an Output without channel before one with channel
descriptor 5, the readiness set is `[3, 5]` and the Output handled for position 1
is the first one, whose `ipc_fd` is 0.  With two channels, 5 and 6, and the first
Output removed by the dispatch of the same turn, the watch of descriptor 6 at
position 2 still drains, but the Output handled for position 2 is an index past
the end of the collection. -/
theorem handled_output_mismatch :
    build_pollfds 3 example_ctx.outputs = [3, 5] ∧
    (handled_output example_ctx 1).map (fun o => (o.registry_name, o.ipc_fd)) = some (1, 0) ∧
    build_pollfds 3 two_channels_ctx.outputs = [3, 5, 6] ∧
    (registry_global_remove world_75 two_channels_ctx 2).2.outputs.map
      (fun o => (o.registry_name, o.ipc_fd)) = [(4, 6)] ∧
    (ipc_read (registry_global_remove world_75 two_channels_ctx 2).1 6).isSome = true ∧
    (handled_output (registry_global_remove world_75 two_channels_ctx 2).2 2).map
      (fun o => (o.registry_name, o.ipc_fd)) = none ∧
    (iteration powInt 3 [true, false, true] [.global_remove 2] world_75
      two_channels_ctx).isNone = true := by
  decide

theorem read_int_from_file_shm (w : World) (path : String) :
    (read_int_from_file w path).2.shm_ok = w.shm_ok := by
  unfold read_int_from_file
  split
  · rfl
  · rfl
  · dsimp only
    split_ifs <;> rfl

/-- On the Output the loop handles for a ready position whose watch drains, a
brightness `b` other than -1 is cached as `{b / 100, b / 100, b / 100, 1}` (shared
memory being granted), and a brightness of -1 leaves the Context as it is and only
warns. -/
theorem channel_loop_single (pow : ℚ → ℚ → ℚ) (i : Nat) (fd : Int) (w w1 : World)
    (ctx : Context) (o : Output) (b : Int) (ho : handled_output ctx i = some o)
    (hdrain : ipc_read w fd = some w1) (hb : (read_int_from_file w1 o.name).1 = b)
    (hshm : ∀ n, w1.shm_ok n = true) :
    (b ≠ -1 → ∃ w2, channel_loop pow i [(fd, true)] w ctx =
      some (w2, { ctx with outputs := (ctx.outputs.set (i - 1)
        ({ o with color := Color.mk ((b : ℚ) / 100) ((b : ℚ) / 100) ((b : ℚ) / 100) 1 })) })) ∧
    (b = -1 → channel_loop pow i [(fd, true)] w ctx =
      some ((read_int_from_file w1 o.name).2.emit (.warn o.name), ctx)) := by
  constructor
  · intro hne
    simp only [channel_loop, if_true, hdrain, ho, hb, hne, if_false]
    cases he : o.color.eq (Color.mk ((b : ℚ) / 100) ((b : ℚ) / 100) ((b : ℚ) / 100) 1) with
    | true =>
      rw [set_gamma_table_same pow _ o _ he]
      have hc := (Color.eq_iff _ _).mp he
      refine ⟨(read_int_from_file w1 o.name).2, ?_⟩
      simp only [← hc]
    | false =>
      rw [set_gamma_table_changed pow _ o _ he
        (by rw [read_int_from_file_shm]; exact hshm _)]
      exact ⟨_, rfl⟩
  · intro heq
    simp only [channel_loop, if_true, hdrain, ho, hb, heq]

/-- C5 fails on the code.  The Output with channel descriptor 5 is ready and its
file `DP-1` reads 75, but the loop handles position 1 on the Output stored first,
which has no name: the read gives -1, a warning is logged, no table is sent and
the ready Output keeps the default color instead of `{0.75, 0.75, 0.75, 1}`.
When the ready Output is alone in the collection the same turn caches
`{0.75, 0.75, 0.75, 1}` and sends one table. -/
theorem channel_handling_wrong_output :
    (read_int_from_file world_75 output_controlled.name).1 = 75 ∧
    build_pollfds 3 example_ctx.outputs = [3, output_controlled.ipc_fd] ∧
    (∃ w, iteration powInt 3 [false, true] [] world_75 example_ctx =
        some (w, example_ctx) ∧
      w.log = [.cancel_read, .ipc_read 5, .warn ""]) ∧
    example_ctx.outputs[1]? = some output_controlled ∧
    output_controlled.color = color_full ∧
    (∃ w table, iteration powInt 3 [false, true] [] world_75 aligned_ctx =
        some (w, { aligned_ctx with outputs := [{ output_controlled with color := color_75 }] }) ∧
      w.log = [.cancel_read, .ipc_read 5, .memfd_create 1536, .set_gamma 21 table,
        .munmap 1536, .close_memfd]) := by
  refine ⟨by decide, by decide, ⟨_, rfl, rfl⟩, rfl, rfl, ?_⟩
  have hcol : Color.mk (((75 : Int) : ℚ) / 100) (((75 : Int) : ℚ) / 100)
      (((75 : Int) : ℚ) / 100) 1 = color_75 := by
    norm_num [color_75]
  have hne : output_controlled.color.eq color_75 = false := by
    norm_num [Color.eq, output_controlled, color_75]
  have hiter : iteration powInt 3 [false, true] [] world_75 aligned_ctx =
      match set_gamma_table powInt ((world_75.emit .cancel_read).emit (.ipc_read 5))
        output_controlled (Color.mk (((75 : Int) : ℚ) / 100) (((75 : Int) : ℚ) / 100)
          (((75 : Int) : ℚ) / 100) 1) with
      | none => none
      | some (w3, output1) =>
        some (w3, { aligned_ctx with outputs := aligned_ctx.outputs.set 0 output1 }) := rfl
  rw [hcol, set_gamma_table_changed powInt _ output_controlled color_75 hne rfl] at hiter
  exact ⟨_, _, hiter, rfl⟩

/-! ## C6: removal of an Output -/

theorem finish_log (w : World) (o : Output) : (o.finish w).1.log = w.log ++ finish_calls o := by
  unfold Output.finish finish_calls remove_path
  by_cases h1 : o.data = 0 <;> by_cases h2 : o.gamma_control = 0 <;>
    by_cases h3 : o.ipc_fd = 0 <;> by_cases h4 : o.name = "" <;>
    simp [h1, h2, h3, h4, World.emit, close_fd] <;> split <;> simp

theorem remove_path_fs (w : World) (path p : String) :
    (remove_path w path).fs p = if p = path ∧ path ≠ "" then none else w.fs p := by
  unfold remove_path
  by_cases h4 : path = ""
  · simp [h4, World.emit]
  · by_cases hp : p = path
    · subst hp
      cases hfs : w.fs p <;> simp [h4, World.emit, hfs]
    · cases hfs : w.fs path <;> simp [h4, World.emit, hfs, hp]

theorem finish_fs (w : World) (o : Output) (p : String) :
    (o.finish w).1.fs p = if p = o.name ∧ o.name ≠ "" then none else w.fs p := by
  unfold Output.finish
  rw [remove_path_fs]
  by_cases h1 : o.data = 0 <;> by_cases h2 : o.gamma_control = 0 <;>
    by_cases h3 : o.ipc_fd = 0 <;> simp [h1, h2, h3, World.emit, close_fd]

theorem remove_first_absent (n : Nat) (l : List Output) (w : World)
    (h : ∀ o ∈ l, o.registry_name ≠ n) : remove_first n l w = (w, l) := by
  induction l with
  | nil => rfl
  | cons o os ih =>
    have ho : o.registry_name ≠ n := h o (List.mem_cons_self _ _)
    have hos := ih (fun x hx => h x (List.mem_cons_of_mem _ hx))
    simp [remove_first, ho, hos]

theorem remove_first_split (n : Nat) (l : List Output) (w : World)
    (h : ∃ o ∈ l, o.registry_name = n) :
    ∃ pre o post, l = pre ++ o :: post ∧ (∀ x ∈ pre, x.registry_name ≠ n) ∧
      o.registry_name = n ∧ remove_first n l w = ((o.finish w).1, pre ++ post) := by
  induction l with
  | nil => simp at h
  | cons a as ih =>
    by_cases ha : a.registry_name = n
    · exact ⟨[], a, as, rfl, by simp, ha, by simp [remove_first, ha]⟩
    · have h2 : ∃ o ∈ as, o.registry_name = n := by
        obtain ⟨o, ho, hon⟩ := h
        rcases List.mem_cons.mp ho with rfl | ho2
        · exact absurd hon ha
        · exact ⟨o, ho2, hon⟩
      obtain ⟨pre, o, post, hl, hpre, hon, hr⟩ := ih h2
      refine ⟨a :: pre, o, post, by simp [hl], ?_, hon, by simp [remove_first, ha, hr]⟩
      intro x hx
      rcases List.mem_cons.mp hx with rfl | hx2
      · exact ha
      · exact hpre x hx2

theorem remove_first_append (n : Nat) (l : List Output) (w : World) (x : Output)
    (h : ∀ o ∈ l, o.registry_name ≠ n) (hx : x.registry_name = n) :
    remove_first n (l ++ [x]) w = ((x.finish w).1, l) := by
  induction l with
  | nil => simp [remove_first, hx]
  | cons a as ih =>
    have ha : a.registry_name ≠ n := h a (List.mem_cons_self _ _)
    simp [remove_first, ha, ih (fun y hy => h y (List.mem_cons_of_mem _ hy))]

/-- C6: `registry_global_remove(n)` with `n` the registry name of some Output
finishes the first such Output (the display handle and the gamma-control handle
are released when non-null, the channel descriptor closed when non-zero, the
removal of the file `name` attempted, in this order) and erases exactly it, the
others keeping their values and order; with `n` matching no Output nothing
changes.  An Output announced and removed before any name event (no other Output
having its registry name) leaves the Context and the files as they were, the only
calls being the bind, the release of the handle and the removal of the empty path:
no file was written and no watch created. -/
theorem registry_global_remove_spec (w : World) (ctx : Context) (n : Nat) :
    ((∃ o ∈ ctx.outputs, o.registry_name = n) →
      ∃ pre o post, ctx.outputs = pre ++ o :: post ∧ (∀ x ∈ pre, x.registry_name ≠ n) ∧
        o.registry_name = n ∧
        registry_global_remove w ctx n = ((o.finish w).1, { ctx with outputs := pre ++ post }) ∧
        (o.finish w).1.log = w.log ++ finish_calls o ∧
        (∀ p, (o.finish w).1.fs p = if p = o.name ∧ o.name ≠ "" then none else w.fs p)) ∧
    ((∀ o ∈ ctx.outputs, o.registry_name ≠ n) → registry_global_remove w ctx n = (w, ctx)) ∧
    (∀ bound, (∀ o ∈ ctx.outputs, o.registry_name ≠ n) →
      (registry_global_remove (registry_global w ctx n wl_output_interface_name bound).1
        (registry_global w ctx n wl_output_interface_name bound).2 n).2 = ctx ∧
      (registry_global_remove (registry_global w ctx n wl_output_interface_name bound).1
        (registry_global w ctx n wl_output_interface_name bound).2 n).1.fs = w.fs ∧
      (registry_global_remove (registry_global w ctx n wl_output_interface_name bound).1
        (registry_global w ctx n wl_output_interface_name bound).2 n).1.log =
        w.log ++ [.bind n wl_output_interface_name bound] ++
          (if bound ≠ 0 then [.wl_output_release bound] else []) ++ [.remove ""]) := by
  refine ⟨?_, ?_, ?_⟩
  · intro h
    obtain ⟨pre, o, post, hl, hpre, hon, hr⟩ := remove_first_split n ctx.outputs w h
    exact ⟨pre, o, post, hl, hpre, hon, by simp [registry_global_remove, hr],
      finish_log w o, finish_fs w o⟩
  · intro h
    simp [registry_global_remove, remove_first_absent n ctx.outputs w h]
  · intro bound h
    have hsplit := remove_first_append n ctx.outputs
      (w.emit (.bind n wl_output_interface_name bound))
      { data := bound, registry_name := n, gamma_size := 0 } h rfl
    simp only [registry_global, if_true, registry_global_remove, hsplit]
    refine ⟨?_, ?_, ?_⟩
    · first | rfl | trivial
    · funext p
      rw [finish_fs]
      simp [World.emit]
    · rw [finish_log]
      simp [World.emit, finish_calls]

/-- C6, on a concrete input: the Context with an `Announced` and a `Controlled`
Output, from which the registry removes name 2. -/
theorem registry_global_remove_spec_witness :
    ∃ pre o post, example_ctx.outputs = pre ++ o :: post ∧
      (∀ x ∈ pre, x.registry_name ≠ 2) ∧ o.registry_name = 2 ∧
      registry_global_remove world0 example_ctx 2 =
        ((o.finish world0).1, { example_ctx with outputs := pre ++ post }) ∧
      (o.finish world0).1.log = world0.log ++ finish_calls o ∧
      (∀ p, (o.finish world0).1.fs p =
        if p = o.name ∧ o.name ≠ "" then none else world0.fs p) :=
  (registry_global_remove_spec world0 example_ctx 2).1
    ⟨output_controlled, by simp [example_ctx], rfl⟩

/-! ## C7: the lifecycle invariant -/

theorem find_first_mem (p : Output → Bool) (l : List Output) (i : Nat) (o : Output)
    (h : find_first p l = some (i, o)) : o ∈ l ∧ p o = true := by
  induction l generalizing i with
  | nil => simp [find_first] at h
  | cons a as ih =>
    by_cases ha : p a = true
    · simp [find_first, ha] at h
      obtain ⟨-, rfl⟩ := h
      exact ⟨List.mem_cons_self _ _, ha⟩
    · simp only [find_first, ha, Bool.false_eq_true, if_false, Option.map_eq_some'] at h
      obtain ⟨r, hr, heq⟩ := h
      obtain ⟨r1, r2⟩ := r
      simp only [Prod.mk.injEq] at heq
      obtain ⟨-, rfl⟩ := heq
      exact ⟨List.mem_cons_of_mem _ (ih r1 hr).1, (ih r1 hr).2⟩

theorem remove_first_subset (n : Nat) (l : List Output) (w : World) (x : Output)
    (h : x ∈ (remove_first n l w).2) : x ∈ l := by
  induction l with
  | nil => simp [remove_first] at h
  | cons a as ih =>
    by_cases ha : a.registry_name = n
    · simp only [remove_first, ha, if_true] at h
      exact List.mem_cons_of_mem _ h
    · simp only [remove_first, ha, if_false] at h
      rcases List.mem_cons.mp h with rfl | h2
      · exact List.mem_cons_self _ _
      · exact List.mem_cons_of_mem _ (ih h2)

theorem step_consistent (w : World) (ctx : Context) (e : Event) (s : World × Context)
    (hwf : e.wf) (hstep : step w ctx e = some s)
    (hinv : ∀ o ∈ ctx.outputs, o.consistent) : ∀ o ∈ s.2.outputs, o.consistent := by
  cases e with
  | global name interface bound =>
    simp only [step, Option.some.injEq] at hstep
    subst hstep
    unfold registry_global
    split_ifs
    · intro o ho
      rcases List.mem_append.mp ho with h1 | h1
      · exact hinv o h1
      · simp only [List.mem_singleton] at h1
        subst h1
        simp [Output.consistent]
    · exact hinv
    · exact hinv
  | global_remove name =>
    simp only [step, Option.some.injEq] at hstep
    subst hstep
    intro o ho
    exact hinv o (remove_first_subset name ctx.outputs w o ho)
  | name output text handle =>
    simp only [step, output_name] at hstep
    cases hf : ctx.find_output output with
    | none => simp [hf] at hstep
    | some r =>
      obtain ⟨i, o1⟩ := r
      simp only [hf] at hstep
      by_cases hm : ctx.gamma_control_manager = 0
      · simp [hm] at hstep
      · simp only [hm, if_false, Option.some.injEq] at hstep
        subst hstep
        intro o ho
        rcases List.mem_or_eq_of_mem_set ho with h1 | h1
        · exact hinv o h1
        · subst h1
          simp only [Event.wf] at hwf
          simp [Output.consistent, hwf.1, hwf.2]
  | gamma_size handle size inotify_fd =>
    simp only [step, zwlr_gamma_control_v1_gamma_size] at hstep
    cases hf : ctx.find_output_gamma_control handle with
    | none => simp [hf] at hstep
    | some r =>
      obtain ⟨i, o1⟩ := r
      simp only [hf] at hstep
      cases hw : write_int_to_file w o1.name (wrapInt32 (trunc (o1.color.red * 100))) with
      | none => simp [hw] at hstep
      | some w1 =>
        simp only [hw, Option.some.injEq] at hstep
        subst hstep
        obtain ⟨hmem, hp⟩ := find_first_mem _ _ _ _ hf
        have hgc : o1.gamma_control ≠ 0 := by
          simp only [Event.wf] at hwf
          have : o1.gamma_control = handle := by simpa using hp
          rw [this]
          exact hwf
        have ho1 := hinv o1 hmem
        intro o ho
        rcases List.mem_or_eq_of_mem_set ho with h1 | h1
        · exact hinv o h1
        · subst h1
          exact ⟨ho1.1, fun _ => ⟨ho1.1.mpr hgc, hgc⟩⟩
  | failed handle =>
    simp only [step, Option.some.injEq] at hstep
    subst hstep
    exact hinv

theorem dispatch_consistent (evs : List Event) (w : World) (ctx : Context)
    (s : World × Context) (hwf : ∀ e ∈ evs, e.wf) (hrun : dispatch evs w ctx = some s)
    (hinv : ∀ o ∈ ctx.outputs, o.consistent) : ∀ o ∈ s.2.outputs, o.consistent := by
  induction evs generalizing w ctx with
  | nil =>
    simp only [dispatch, Option.some.injEq] at hrun
    subst hrun
    exact hinv
  | cons e es ih =>
    simp only [dispatch] at hrun
    cases hs : step w ctx e with
    | none => simp [hs] at hrun
    | some s1 =>
      simp only [hs] at hrun
      exact ih s1.1 s1.2 (fun x hx => hwf x (List.mem_cons_of_mem _ hx)) hrun
        (step_consistent w ctx e s1 (hwf e (List.mem_cons_self _ _)) hs hinv)

/-- C7 (as amended): in every Context reached from the empty one by a sequence of
`registry_global`, `output_name`, `gamma_size`, `failed` and
`registry_global_remove` callbacks (delivered for non-null handles the client
library created, with non-empty output names), every Output has a non-empty name
if and only if its gamma-control handle is non-null, and has a channel
(`ipc_fd ≠ 0`) only if it has both. -/
theorem reachable_consistent (evs : List Event) (w : World) (s : World × Context)
    (hwf : ∀ e ∈ evs, e.wf) (hrun : dispatch evs w {} = some s) :
    ∀ o ∈ s.2.outputs,
      (o.name ≠ "" ↔ o.gamma_control ≠ 0) ∧
      (o.ipc_fd ≠ 0 → o.name ≠ "" ∧ o.gamma_control ≠ 0) :=
  dispatch_consistent evs w {} s hwf hrun (by simp)

theorem example_events_wf : ∀ e ∈ example_events, e.wf := by
  intro e he
  simp only [example_events, List.mem_cons, List.mem_singleton, List.not_mem_nil,
    or_false] at he
  rcases he with rfl | rfl | rfl | rfl | rfl <;> simp [Event.wf]

/-- C7, on a concrete input: the five events of `example_events`, which lead to an
`Announced` and a `Controlled` Output; the `Controlled` one has a channel, hence a
name and a handle. -/
theorem reachable_consistent_witness :
    (output_controlled.name ≠ "" ↔ output_controlled.gamma_control ≠ 0) ∧
    output_controlled.name ≠ "" ∧ output_controlled.gamma_control ≠ 0 :=
  example_ctx_reachable.elim fun w hw =>
    ⟨(reachable_consistent example_events world0 (w, example_ctx) example_events_wf hw
        output_controlled (by simp [example_ctx])).1,
      (reachable_consistent example_events world0 (w, example_ctx) example_events_wf hw
        output_controlled (by simp [example_ctx])).2 (by decide)⟩

/-- C7 as stated fails: after the registry announced an output and the compositor
sent its name, the Output has a non-empty name and a gamma-control handle but
no channel yet (`ipc_fd = 0`). -/
theorem named_without_channel_counterexample :
    (∀ e ∈ named_events, e.wf) ∧
    ∃ w, dispatch named_events world0 {} =
        some (w, { outputs := [output_named], gamma_control_manager := 30 }) ∧
      output_named.name ≠ "" ∧ output_named.gamma_control ≠ 0 ∧ output_named.ipc_fd = 0 ∧
      ¬ (output_named.ipc_fd ≠ 0 ↔ output_named.name ≠ "") := by
  refine ⟨?_, _, rfl, by decide, by decide, rfl, by decide⟩
  intro e he
  simp only [named_events, List.mem_cons, List.mem_singleton, List.not_mem_nil,
    or_false] at he
  rcases he with rfl | rfl | rfl <;> simp [Event.wf]

end GammaDaemon
